import Mathlib

/-!
Shallow embedding of the `prism-indexer` chunker (src/chunker.rs) and language
registry (src/language.rs), together with proofs about the chunk-assembly and
re-splitting algorithms.

Rust strings are modelled by Lean `String`, with the Rust `str` operations the
code uses (`lines`, `trim`, `starts_with`, `len`, `is_empty`) re-implemented
below over the underlying character list so that every definition evaluates by
kernel reduction.  Rust `len()` is the UTF-8 byte length, so it is modelled by
`utf8_len`, not by the character count.
-/

set_option maxHeartbeats 1000000

/-- UTF-8 encoded size in bytes of one Unicode scalar value, as Rust
`char::len_utf8` computes it. -/
def char_utf8_size (c : Char) : Nat :=
  if c.toNat ≤ 0x7F then 1
  else if c.toNat ≤ 0x7FF then 2
  else if c.toNat ≤ 0xFFFF then 3
  else 4

/-- Rust `str::len`: the UTF-8 byte length of a string. -/
def utf8_len (s : String) : Nat :=
  s.data.foldl (fun n c => n + char_utf8_size c) 0

/-- Rust `str::is_empty`. -/
def rust_is_empty (s : String) : Bool :=
  s.data.isEmpty

/-- Rust `str::trim`: drop leading and trailing whitespace.  (Rust trims all
Unicode whitespace; the sources only ever contain ASCII whitespace, which
`Char.isWhitespace` covers.) -/
def rust_trim (s : String) : String :=
  String.mk (((s.data.dropWhile Char.isWhitespace).reverse.dropWhile Char.isWhitespace).reverse)

/-- Rust `str::starts_with` for a string pattern. -/
def starts_with (s pat : String) : Bool :=
  pat.data.isPrefixOf s.data

/-- Split a character list at every newline character; `n` newlines yield
`n + 1` segments. -/
def split_newlines : List Char → List (List Char)
  | [] => [[]]
  | c :: cs =>
    if c = '\n' then [] :: split_newlines cs
    else
      match split_newlines cs with
      | [] => [[c]]
      | l :: ls => (c :: l) :: ls

/-- Drop one trailing carriage return, as Rust `str::lines` does per line. -/
def strip_cr (l : List Char) : List Char :=
  if l.getLast? = some '\r' then l.dropLast else l

/-- Rust `str::lines`: split on `'\n'` (stripping a trailing `'\r'` from each
line); the empty string has no lines, and a final trailing newline does not
produce a trailing empty line. -/
def rust_lines (s : String) : List String :=
  if s.data = [] then []
  else
    let parts := split_newlines s.data
    let parts := if s.data.getLast? = some '\n' then parts.dropLast else parts
    parts.map (fun l => String.mk (strip_cr l))

/-- Rust `[&str]::join("\n")`. -/
def join_lines : List String → String
  | [] => ""
  | [l] => l
  | l :: ls => l ++ "\n" ++ join_lines ls

/-- Rust slice `&v[a..b]` of a list (the code only slices with `a ≤ b` and
`b ≤ v.len()`; out-of-range slicing panics in Rust and is out of scope). -/
def rust_slice {α : Type} (l : List α) (a b : Nat) : List α :=
  (l.drop a).take (b - a)

/-! ### Data model

`types.rs` is referenced by the chunker but is not among the sources. -/

/-- Modelled from the spec: `FunctionInfo` of the missing `types.rs` — a
structural descriptor from the extractor with a name and 1-based inclusive
start/end line numbers (§3 of the spec; field names as used by `chunker.rs`). -/
structure FunctionInfo where
  name : String
  start_line : Nat
  end_line : Nat
deriving DecidableEq, Repr

/-- Modelled from the spec: `ClassInfo` of the missing `types.rs` — a class
descriptor with name, 1-based inclusive line bounds and the list of method
`FunctionInfo` entries (§3; field `methods` as used by `create_class_chunk`). -/
structure ClassInfo where
  name : String
  start_line : Nat
  end_line : Nat
  methods : List FunctionInfo
deriving DecidableEq, Repr

/-- Modelled from the spec: `ImportInfo` of the missing `types.rs` — a
descriptor of a single import/use statement, attached verbatim to every chunk
(§3); its fields are never inspected by the chunker, only cloned. -/
structure ImportInfo where
  statement : String
deriving DecidableEq, Repr

/-- Modelled from the spec: `CodeChunk` of the missing `types.rs`, with exactly
the fields the struct literals in `chunker.rs` populate (§3 of the spec). -/
structure CodeChunk where
  id : String
  text : String
  start_line : Nat
  end_line : Nat
  tokens : Nat
  language : String
  functions : List FunctionInfo
  classes : List ClassInfo
  imports : List ImportInfo
  dependencies : List String
deriving DecidableEq, Repr, Inhabited

/-- Modelled from the spec: `Uuid::new_v4().to_string()` — chunk identifiers
come from a source of randomness (§5) and no property here depends on their
value, so identifier generation is modelled as a constant. -/
def uuid_new_v4 : String := ""

/-! ### Constants (src/chunker.rs lines 5-15) -/

def DEFAULT_CHUNK_SIZE : Nat := 512
def DEFAULT_OVERLAP : Nat := 128
def MAX_CHUNK_SIZE : Nat := 1000
def MIN_CHUNK_SIZE : Nat := 50
def MAX_LINES_PER_CHUNK : Nat := 200
def MIN_LINES_PER_CHUNK : Nat := 5

/-! ### Token estimator and dependency scanner -/

/-- Rust `estimate_tokens` (src/chunker.rs lines 247-258): 0 for empty text,
otherwise `(text.len() / 4).max(1)` where `len` is the byte length. -/
def estimate_tokens (text : String) : Nat :=
  if rust_is_empty text then 0
  else Nat.max (utf8_len text / 4) 1

/-- Rust `extract_dependencies` (src/chunker.rs lines 232-244): collect every
trimmed line starting with an import-like keyword, in order. -/
def extract_dependencies (text : String) : List String :=
  (rust_lines text).filterMap (fun line =>
    let l := rust_trim line
    if starts_with l "import " || starts_with l "use " || starts_with l "require(" then
      some l
    else none)

/-! ### Context attacher -/

/-- The per-line test of `find_preceding_context`: trimmed, the line is empty
or starts with a line-comment or block-comment-continuation marker. -/
def context_line_ok (line : String) : Bool :=
  rust_is_empty (rust_trim line) || starts_with (rust_trim line) "//" ||
    starts_with (rust_trim line) "*"

/-- The loop body of `find_preceding_context`: Rust `for i in (0..3).rev()`
visits `i = 2, 1, 0`; when `start_idx > i` the line `start_idx - i - 1` either
moves `context_start` onto it (if it qualifies) or breaks the loop. -/
def fpc_loop (lines : List String) (start_idx : Nat) : List Nat → Nat → Nat
  | [], context_start => context_start
  | i :: rest, context_start =>
    if start_idx > i then
      if context_line_ok (lines.getD (start_idx - i - 1) "") then
        fpc_loop lines start_idx rest (start_idx - i - 1)
      else context_start
    else fpc_loop lines start_idx rest context_start

/-- Rust `find_preceding_context` (src/chunker.rs lines 193-209). -/
def find_preceding_context (lines : List String) (start_idx : Nat) : Nat :=
  fpc_loop lines start_idx [2, 1, 0] start_idx

/-! ### Coverage tracker -/

/-- Pointwise form of the loop `for i in start_idx..end_idx { covered[i] = true }`:
element `i` of the list becomes true when `s ≤ i < e`. -/
def mark_aux : List Bool → Nat → Nat → Nat → List Bool
  | [], _, _, _ => []
  | b :: rest, s, e, i => (if s ≤ i ∧ i < e then true else b) :: mark_aux rest s e (i + 1)

/-- Rust `mark_lines_covered` (src/chunker.rs lines 212-219): set indices
`[start_line - 1, min end_line len)` of the coverage record. -/
def mark_lines_covered (covered : List Bool) (start_line end_line : Nat) : List Bool :=
  mark_aux covered (start_line - 1) (Nat.min end_line covered.length) 0

/-- Rust `is_inside_class` (src/chunker.rs lines 222-229). -/
def is_inside_class (func : FunctionInfo) (classes : List ClassInfo) : Bool :=
  classes.any (fun c => func.start_line ≥ c.start_line && func.end_line ≤ c.end_line)

/-! ### Language configuration registry (src/language.rs) -/

/-- Rust `LanguageConfig` (src/language.rs lines 10-34); the four node-kind
lists are static string sets consumed by the external extractor. -/
structure LanguageConfig where
  preferred_chunk_size : Nat
  max_lines : Nat
  include_docs : Bool
  include_imports : Bool
  function_nodes : List String
  class_nodes : List String
  interface_nodes : List String
  import_nodes : List String
deriving DecidableEq, Repr

namespace LanguageConfig

/-- Rust `LanguageConfig::typescript` (src/language.rs lines 38-66). -/
def typescript : LanguageConfig where
  preferred_chunk_size := 512
  max_lines := 200
  include_docs := true
  include_imports := true
  function_nodes := ["function_declaration", "function_expression", "arrow_function",
    "method_definition", "generator_function_declaration"]
  class_nodes := ["class_declaration", "class_expression"]
  interface_nodes := ["interface_declaration", "type_alias_declaration", "enum_declaration"]
  import_nodes := ["import_statement", "import_declaration", "export_statement"]

/-- Rust `LanguageConfig::python` (src/language.rs lines 69-91). -/
def python : LanguageConfig where
  preferred_chunk_size := 512
  max_lines := 200
  include_docs := true
  include_imports := true
  function_nodes := ["function_definition", "lambda"]
  class_nodes := ["class_definition"]
  interface_nodes := []
  import_nodes := ["import_statement", "import_from_statement", "future_import_statement"]

/-- Rust `LanguageConfig::rust` (src/language.rs lines 94-120). -/
def rust : LanguageConfig where
  preferred_chunk_size := 512
  max_lines := 200
  include_docs := true
  include_imports := true
  function_nodes := ["function_item", "function_signature_item", "closure_expression"]
  class_nodes := ["struct_item", "enum_item", "impl_item"]
  interface_nodes := ["trait_item", "type_alias_item"]
  import_nodes := ["use_declaration", "mod_item", "use_wildcard"]

/-- Rust `LanguageConfig::go` (src/language.rs lines 123-146). -/
def go : LanguageConfig where
  preferred_chunk_size := 512
  max_lines := 200
  include_docs := true
  include_imports := true
  function_nodes := ["function_declaration", "method_declaration"]
  class_nodes := ["type_declaration", "type_spec"]
  interface_nodes := ["interface_declaration", "interface_type"]
  import_nodes := ["import_declaration", "import_spec"]

/-- Rust `LanguageConfig::java` (src/language.rs lines 149-173). -/
def java : LanguageConfig where
  preferred_chunk_size := 512
  max_lines := 200
  include_docs := true
  include_imports := true
  function_nodes := ["method_declaration", "constructor_declaration", "lambda_expression"]
  class_nodes := ["class_declaration", "enum_declaration", "record_declaration"]
  interface_nodes := ["interface_declaration", "annotation_declaration"]
  import_nodes := ["import_declaration"]

/-- Rust `LanguageConfig::cpp` (src/language.rs lines 176-200). -/
def cpp : LanguageConfig where
  preferred_chunk_size := 512
  max_lines := 200
  include_docs := true
  include_imports := true
  function_nodes := ["function_definition", "function_declarator", "lambda_expression"]
  class_nodes := ["class_specifier", "struct_specifier", "union_specifier"]
  interface_nodes := []
  import_nodes := ["include_declaration", "using_declaration"]

end LanguageConfig

/-- Rust `get_language_config` (src/language.rs lines 224-234): match on the
language id, defaulting to the TypeScript configuration. -/
def get_language_config (language : String) : LanguageConfig :=
  if language = "typescript" ∨ language = "javascript" then LanguageConfig.typescript
  else if language = "python" then LanguageConfig.python
  else if language = "rust" then LanguageConfig.rust
  else if language = "go" then LanguageConfig.go
  else if language = "java" then LanguageConfig.java
  else if language = "cpp" ∨ language = "c++" then LanguageConfig.cpp
  else LanguageConfig.typescript

/-- Rust `is_supported_language` (src/language.rs lines 237-242). -/
def is_supported_language (language : String) : Bool :=
  language = "typescript" || language = "javascript" || language = "python" ||
    language = "rust" || language = "go" || language = "java" || language = "cpp"

/-- Rust `supported_languages` (src/language.rs lines 245-247). -/
def supported_languages : List String :=
  ["typescript", "javascript", "python", "rust", "go", "java", "cpp"]

/-! ### Structural chunk constructors (src/chunker.rs) -/

/-- Rust `create_class_chunk` (src/chunker.rs lines 70-97). -/
def create_class_chunk (cls : ClassInfo) (source : String) (language : String)
    (imports : List ImportInfo) : CodeChunk :=
  let source_lines := rust_lines source
  let start_idx := cls.start_line - 1
  let end_idx := Nat.min cls.end_line source_lines.length
  let text := join_lines (rust_slice source_lines start_idx end_idx)
  { id := uuid_new_v4
    text := text
    start_line := cls.start_line
    end_line := cls.end_line
    tokens := estimate_tokens text
    language := language
    functions := cls.methods
    classes := [cls]
    imports := imports
    dependencies := extract_dependencies text }

/-- Rust `create_function_chunk` (src/chunker.rs lines 100-130): the chunk
starts at the attached context line and its `start_line` field is
`context_start + 1`. -/
def create_function_chunk (func : FunctionInfo) (source : String) (language : String)
    (imports : List ImportInfo) : CodeChunk :=
  let source_lines := rust_lines source
  let start_idx := func.start_line - 1
  let end_idx := Nat.min func.end_line source_lines.length
  let context_start := find_preceding_context source_lines start_idx
  let text := join_lines (rust_slice source_lines context_start end_idx)
  { id := uuid_new_v4
    text := text
    start_line := context_start + 1
    end_line := func.end_line
    tokens := estimate_tokens text
    language := language
    functions := [func]
    classes := []
    imports := imports
    dependencies := extract_dependencies text }

/-! ### Uncovered-region splitter (src/chunker.rs lines 133-190)

The Rust code is a pair of nested `while` loops: an outer loop that first
skips covered lines and then advances to the end of the maximal run of
uncovered lines, and an inner `step_by` loop that cuts the run into windows.
`uncovered_runs` performs exactly the outer scan in one structurally
recursive pass (skipping covered lines, accumulating the current uncovered
run), and `step_windows` is the `(start_idx..end_idx).step_by(chunk_size)`
iteration. -/

/-- Maximal runs of `false` entries: scan the record with the current index
`i` and the start of the currently open uncovered run (if any), emitting
half-open index intervals `(s, e)`. -/
def uncovered_runs_aux : List Bool → Nat → Option Nat → List (Nat × Nat)
  | [], _, none => []
  | [], i, some s => [(s, i)]
  | b :: rest, i, none =>
    if b then uncovered_runs_aux rest (i + 1) none
    else uncovered_runs_aux rest (i + 1) (some i)
  | b :: rest, i, some s =>
    if b then (s, i) :: uncovered_runs_aux rest (i + 1) none
    else uncovered_runs_aux rest (i + 1) (some s)

/-- The maximal uncovered runs of a coverage record, as half-open `(s, e)`
index intervals in increasing order. -/
def uncovered_runs (covered : List Bool) : List (Nat × Nat) :=
  uncovered_runs_aux covered 0 none

/-- Rust `for i in (a..b).step_by(cs)`, yielding each window start `i` with
the window end `min (i + cs) b`.  The fuel `b - a` bounds the number of
iterations whenever `cs ≥ 1` (each step advances `i` by `cs`). -/
def step_windows_aux (b cs : Nat) : Nat → Nat → List (Nat × Nat)
  | 0, _ => []
  | fuel + 1, i =>
    if i < b then (i, Nat.min (i + cs) b) :: step_windows_aux b cs fuel (i + cs)
    else []

/-- The windows `(i, chunk_end)` of the `step_by` loop over `a..b`. -/
def step_windows (a b cs : Nat) : List (Nat × Nat) :=
  step_windows_aux b cs (b - a) a

/-- One window of the uncovered splitter (src/chunker.rs lines 166-182): the
chunk is emitted only when the trimmed text has byte length at least
`MIN_CHUNK_SIZE`. -/
def emit_window (source_lines : List String) (language : String)
    (imports : List ImportInfo) (i chunk_end : Nat) : Option CodeChunk :=
  let text := join_lines (rust_slice source_lines i chunk_end)
  if MIN_CHUNK_SIZE ≤ utf8_len (rust_trim text) then
    some { id := uuid_new_v4
           text := text
           start_line := i + 1
           end_line := chunk_end
           tokens := estimate_tokens text
           language := language
           functions := []
           classes := []
           imports := imports
           dependencies := extract_dependencies text }
  else none

/-- The chunks one maximal uncovered run `(s, e)` contributes (the body of the
outer loop, src/chunker.rs lines 159-184): nothing when the run is shorter
than `MIN_LINES_PER_CHUNK`, otherwise the emitted windows of
`MAX_LINES_PER_CHUNK.min(lines_count)` lines each. -/
def run_chunks (source_lines : List String) (language : String)
    (imports : List ImportInfo) (se : Nat × Nat) : List CodeChunk :=
  if MIN_LINES_PER_CHUNK ≤ se.2 - se.1 then
    (step_windows se.1 se.2 (Nat.min MAX_LINES_PER_CHUNK (se.2 - se.1))).filterMap
      (fun w => emit_window source_lines language imports w.1 w.2)
  else []

/-- Rust `create_uncovered_chunks` (src/chunker.rs lines 133-190): for each
maximal uncovered run of at least `MIN_LINES_PER_CHUNK` lines, cut it into
windows of `MAX_LINES_PER_CHUNK.min(lines_count)` lines and emit each window
passing the minimum-size test. -/
def create_uncovered_chunks (covered_lines : List Bool) (source : String)
    (language : String) (imports : List ImportInfo) : List CodeChunk :=
  (uncovered_runs covered_lines).foldl
    (fun chunks se => chunks ++ run_chunks (rust_lines source) language imports se) []

/-! ### Chunk assembler (src/chunker.rs lines 17-67)

`chunk_code` in Rust first calls the structural extractor
(`crate::extractor`, an external collaborator whose source is not part of
this repository); following §9 of the spec the extractor is modelled as a
capability interface, so the three descriptor lists are parameters here. -/

/-- The class chunks of `chunk_code`, in extractor order. -/
def class_chunks (classes : List ClassInfo) (source : String) (language : String)
    (imports : List ImportInfo) : List CodeChunk :=
  classes.map (fun c => create_class_chunk c source language imports)

/-- The standalone-function chunks of `chunk_code`: functions whose range is
inside some class are skipped. -/
def function_chunks (functions : List FunctionInfo) (classes : List ClassInfo)
    (source : String) (language : String) (imports : List ImportInfo) : List CodeChunk :=
  (functions.filter (fun f => ! is_inside_class f classes)).map
    (fun f => create_function_chunk f source language imports)

/-- The coverage record after the two structural loops of `chunk_code`
(src/chunker.rs lines 36-55): starting all-false with one entry per source
line, each produced class chunk and then each produced standalone-function
chunk marks its own `[start_line, end_line]` span. -/
def covered_after_structural (functions : List FunctionInfo) (classes : List ClassInfo)
    (imports : List ImportInfo) (source : String) (language : String) : List Bool :=
  let source_lines := rust_lines source
  let covered0 := List.replicate source_lines.length false
  let covered1 := (class_chunks classes source language imports).foldl
    (fun cov ch => mark_lines_covered cov ch.start_line ch.end_line) covered0
  (function_chunks functions classes source language imports).foldl
    (fun cov ch => mark_lines_covered cov ch.start_line ch.end_line) covered1

/-- Rust `chunk_code` (src/chunker.rs lines 17-67) with the extractor output
as parameters: class chunks, then standalone-function chunks, then filler
chunks for the uncovered lines. -/
def chunk_code (functions : List FunctionInfo) (classes : List ClassInfo)
    (imports : List ImportInfo) (source : String) (language : String) : List CodeChunk :=
  class_chunks classes source language imports ++
    function_chunks functions classes source language imports ++
    create_uncovered_chunks (covered_after_structural functions classes imports source language)
      source language imports

/-! ### Size-based re-splitter (src/chunker.rs lines 261-319) -/

/-- The accumulation loop of `split_large_chunk`: walk the lines with index
`i`, the start `current_start` of the open accumulation and its running token
estimate `current_size`; when adding the next line would overflow the budget
and something is accumulated, close a sub-chunk `[current_start, i)` (whose
recorded line range is `[start + current_start, start + i]`); at the end of
the walk flush the remaining lines with the parent's own `end_line`. -/
def split_loop (parent : CodeChunk) (lines : List String) (target_size : Nat) :
    List String → Nat → Nat → Nat → List CodeChunk
  | [], _, current_start, current_size =>
    if current_start < lines.length then
      [{ id := uuid_new_v4
         text := join_lines (lines.drop current_start)
         start_line := parent.start_line + current_start
         end_line := parent.end_line
         tokens := current_size
         language := parent.language
         functions := parent.functions
         classes := parent.classes
         imports := parent.imports
         dependencies := parent.dependencies }]
    else []
  | line :: rest, i, current_start, current_size =>
    let line_tokens := estimate_tokens line
    if current_size + line_tokens > target_size ∧ current_start < i then
      { id := uuid_new_v4
        text := join_lines (rust_slice lines current_start i)
        start_line := parent.start_line + current_start
        end_line := parent.start_line + i
        tokens := current_size
        language := parent.language
        functions := parent.functions
        classes := parent.classes
        imports := parent.imports
        dependencies := parent.dependencies } ::
        split_loop parent lines target_size rest (i + 1) i line_tokens
    else
      split_loop parent lines target_size rest (i + 1) current_start (current_size + line_tokens)

/-- Rust `split_large_chunk` (src/chunker.rs lines 261-319). -/
def split_large_chunk (chunk : CodeChunk) (target_size : Nat) : List CodeChunk :=
  if chunk.tokens ≤ target_size then [chunk]
  else
    let lines := rust_lines chunk.text
    split_loop chunk lines target_size lines 0 0 0

/-! ## Helper lemmas -/

lemma nat_min_eq_ite (a b : Nat) : Nat.min a b = if a ≤ b then a else b := rfl

lemma mem_foldl_append {α β : Type} (g : β → List α) (l : List β) (init : List α) (a : α) :
    a ∈ l.foldl (fun acc x => acc ++ g x) init ↔ a ∈ init ∨ ∃ x ∈ l, a ∈ g x := by
  induction l generalizing init with
  | nil => simp
  | cons x xs ih =>
    simp only [List.foldl_cons, ih, List.mem_append, List.mem_cons]
    constructor
    · rintro ((h | h) | ⟨y, hy, hmem⟩)
      · exact Or.inl h
      · exact Or.inr ⟨x, Or.inl rfl, h⟩
      · exact Or.inr ⟨y, Or.inr hy, hmem⟩
    · rintro (h | ⟨y, rfl | hy, hmem⟩)
      · exact Or.inl (Or.inl h)
      · exact Or.inl (Or.inr hmem)
      · exact Or.inr ⟨y, hy, hmem⟩

lemma mem_create_uncovered_chunks {cov : List Bool} {source language : String}
    {imports : List ImportInfo} {ch : CodeChunk} :
    ch ∈ create_uncovered_chunks cov source language imports ↔
      ∃ se ∈ uncovered_runs cov, ch ∈ run_chunks (rust_lines source) language imports se := by
  unfold create_uncovered_chunks
  rw [mem_foldl_append]
  simp

lemma mem_run_chunks {source_lines : List String} {language : String}
    {imports : List ImportInfo} {se : Nat × Nat} {ch : CodeChunk} :
    ch ∈ run_chunks source_lines language imports se ↔
      MIN_LINES_PER_CHUNK ≤ se.2 - se.1 ∧
        ∃ w ∈ step_windows se.1 se.2 (Nat.min MAX_LINES_PER_CHUNK (se.2 - se.1)),
          emit_window source_lines language imports w.1 w.2 = some ch := by
  unfold run_chunks
  split_ifs with h
  · simp [List.mem_filterMap, h]
  · simp [h]

lemma emit_window_some {source_lines : List String} {language : String}
    {imports : List ImportInfo} {i ce : Nat} {ch : CodeChunk}
    (h : emit_window source_lines language imports i ce = some ch) :
    ch.text = join_lines (rust_slice source_lines i ce) ∧ ch.start_line = i + 1 ∧
      ch.end_line = ce ∧ ch.language = language ∧ ch.functions = [] ∧
      ch.classes = [] ∧ ch.imports = imports ∧
      MIN_CHUNK_SIZE ≤ utf8_len (rust_trim ch.text) := by
  simp only [emit_window] at h
  split_ifs at h with hc
  · cases h
    exact ⟨rfl, rfl, rfl, rfl, rfl, rfl, rfl, hc⟩

lemma mem_step_windows_aux {b cs : Nat} :
    ∀ fuel i w, w ∈ step_windows_aux b cs fuel i →
      i ≤ w.1 ∧ w.1 < b ∧ w.2 = Nat.min (w.1 + cs) b := by
  intro fuel
  induction fuel with
  | zero => intro i w h; simp [step_windows_aux] at h
  | succ n ih =>
    intro i w h
    simp only [step_windows_aux] at h
    split_ifs at h with hib
    · rcases List.mem_cons.mp h with rfl | hmem
      · exact ⟨le_refl _, hib, rfl⟩
      · obtain ⟨h1, h2, h3⟩ := ih (i + cs) w hmem
        exact ⟨by omega, h2, h3⟩
    · simp at h

lemma mem_step_windows {a b cs : Nat} {w : Nat × Nat} (hcs : 1 ≤ cs)
    (h : w ∈ step_windows a b cs) :
    a ≤ w.1 ∧ w.1 < w.2 ∧ w.2 ≤ b ∧ w.2 - w.1 ≤ cs := by
  obtain ⟨h1, h2, h3⟩ := mem_step_windows_aux (b - a) a w h
  rw [nat_min_eq_ite] at h3
  split_ifs at h3 <;> omega

lemma uncovered_runs_aux_mem :
    ∀ (l : List Bool) (i : Nat) (ost : Option Nat), (∀ s, ost = some s → s < i) →
      ∀ p ∈ uncovered_runs_aux l i ost, p.1 < p.2 ∧ p.2 ≤ i + l.length := by
  intro l
  induction l with
  | nil =>
    intro i ost hinv p hp
    cases ost with
    | none => simp [uncovered_runs_aux] at hp
    | some s =>
      simp only [uncovered_runs_aux, List.mem_singleton] at hp
      subst hp
      exact ⟨hinv s rfl, by simp⟩
  | cons b rest ih =>
    intro i ost hinv p hp
    cases ost with
    | none =>
      simp only [uncovered_runs_aux] at hp
      split_ifs at hp with hb
      · obtain ⟨h1, h2⟩ := ih (i + 1) none (by intro s hs; cases hs) p hp
        refine ⟨h1, ?_⟩
        simp only [List.length_cons]
        omega
      · obtain ⟨h1, h2⟩ := ih (i + 1) (some i) (by intro s hs; cases hs; omega) p hp
        refine ⟨h1, ?_⟩
        simp only [List.length_cons]
        omega
    | some s =>
      have hsi := hinv s rfl
      simp only [uncovered_runs_aux] at hp
      split_ifs at hp with hb
      · rcases List.mem_cons.mp hp with hps | hp2
        · subst hps
          refine ⟨hsi, ?_⟩
          simp only [List.length_cons]
          omega
        · obtain ⟨h1, h2⟩ := ih (i + 1) none (by intro u hu; cases hu) p hp2
          refine ⟨h1, ?_⟩
          simp only [List.length_cons]
          omega
      · obtain ⟨h1, h2⟩ := ih (i + 1) (some s)
          (by intro u hu; injection hu with hu2; subst hu2; omega) p hp
        refine ⟨h1, ?_⟩
        simp only [List.length_cons]
        omega

lemma mem_uncovered_runs {cov : List Bool} {p : Nat × Nat} (hp : p ∈ uncovered_runs cov) :
    p.1 < p.2 ∧ p.2 ≤ cov.length := by
  have := uncovered_runs_aux_mem cov 0 none (by simp) p hp
  simpa using this

lemma chunk_code_language {functions : List FunctionInfo} {classes : List ClassInfo}
    {imports : List ImportInfo} {source language : String} {ch : CodeChunk}
    (h : ch ∈ chunk_code functions classes imports source language) :
    ch.language = language := by
  unfold chunk_code at h
  rcases List.mem_append.mp h with h1 | h2
  · rcases List.mem_append.mp h1 with hc | hf
    · obtain ⟨c, _, rfl⟩ := List.mem_map.mp hc
      rfl
    · obtain ⟨f, _, rfl⟩ := List.mem_map.mp hf
      rfl
  · rw [mem_create_uncovered_chunks] at h2
    obtain ⟨se, _, hrun⟩ := h2
    obtain ⟨_, w, _, hemit⟩ := mem_run_chunks.mp hrun
    exact (emit_window_some hemit).2.2.2.1

/-! ## Claims -/

/-- A concrete within-budget chunk used by witnesses. -/
def c5ex : CodeChunk :=
  { id := "x", text := "fn main() {}", start_line := 1, end_line := 1, tokens := 3,
    language := "rust", functions := [], classes := [], imports := [], dependencies := [] }

/-- C5: `split_large_chunk` applied to a chunk whose stored token estimate is
within the budget returns exactly the one-element list holding the input chunk
unchanged. -/
theorem c5_within_budget_identity (chunk : CodeChunk) (target_size : Nat)
    (h : chunk.tokens ≤ target_size) :
    split_large_chunk chunk target_size = [chunk] := by
  unfold split_large_chunk
  rw [if_pos h]

/-- C5 witness: a concrete chunk with 3 estimated tokens and budget 512. -/
theorem c5_within_budget_identity_witness :
    c5ex.tokens ≤ 512 ∧ split_large_chunk c5ex 512 = [c5ex] :=
  ⟨by decide, c5_within_budget_identity c5ex 512 (by decide)⟩

/-- C8 counterexample: Rust `len()` counts UTF-8 bytes, not characters; on the
4-character, 8-byte text made of four copies of the character é the code
returns max(1, 8/4) = 2, while max(1, character_length/4) = max(1, 4/4) = 1. -/
theorem c8_character_length_counterexample :
    estimate_tokens "éééé" = 2 ∧ ("éééé" : String).length = 4 ∧
      Nat.max 1 (("éééé" : String).length / 4) = 1 ∧
      estimate_tokens "éééé" ≠ Nat.max 1 (("éééé" : String).length / 4) := by
  refine ⟨by decide, by decide, by decide, by decide⟩

/-- C8 (amended): `estimate_tokens` returns 0 for empty text and otherwise
max(1, utf8_byte_length / 4) with integer division; in particular the result
is at least 1 for every non-empty text. -/
theorem c8_estimate_tokens_amended (text : String) :
    (rust_is_empty text = true → estimate_tokens text = 0) ∧
    (rust_is_empty text = false →
      estimate_tokens text = Nat.max 1 (utf8_len text / 4) ∧ 1 ≤ estimate_tokens text) := by
  constructor
  · intro h
    simp [estimate_tokens, h]
  · intro h
    unfold estimate_tokens
    rw [if_neg (by simp [h])]
    exact ⟨Nat.max_comm _ 1, Nat.le_max_right _ 1⟩

/-- C8 witness: the empty text and the 4-byte text "abcd". -/
theorem c8_estimate_tokens_amended_witness :
    estimate_tokens "" = 0 ∧ estimate_tokens "abcd" = Nat.max 1 (utf8_len "abcd" / 4) ∧
      1 ≤ estimate_tokens "abcd" :=
  ⟨(c8_estimate_tokens_amended "").1 (by decide),
    ((c8_estimate_tokens_amended "abcd").2 (by decide)).1,
    ((c8_estimate_tokens_amended "abcd").2 (by decide)).2⟩

/-- C10: `is_supported_language` is true exactly on the seven identifiers of
`supported_languages`; "c++" is reported unsupported even though
`get_language_config` resolves it to the dedicated C++ configuration, which
differs from the default (TypeScript) configuration — "supported" is strictly
narrower than "has a dedicated configuration". -/
theorem c10_supported_iff_in_list :
    (∀ l : String, is_supported_language l = true ↔ l ∈ supported_languages) ∧
    is_supported_language "c++" = false ∧
    get_language_config "c++" = LanguageConfig.cpp ∧
    LanguageConfig.cpp ≠ LanguageConfig.typescript := by
  refine ⟨?_, by decide, by decide, by decide⟩
  intro l
  simp [is_supported_language, supported_languages]
  tauto

/-- C9: a language identifier outside the registry's known set resolves to the
default (TypeScript) configuration, and every chunk `chunk_code` produces for
such an identifier still carries the caller-supplied identifier verbatim in
its `language` field. -/
theorem c9_unknown_language_fallback (language : String)
    (h : language ∉ (["typescript", "javascript", "python", "rust", "go", "java",
        "cpp", "c++"] : List String)) :
    get_language_config language = LanguageConfig.typescript ∧
      ∀ functions classes imports source ch,
        ch ∈ chunk_code functions classes imports source language →
          ch.language = language := by
  constructor
  · simp only [List.mem_cons, List.not_mem_nil, or_false, not_or] at h
    obtain ⟨h1, h2, h3, h4, h5, h6, h7, h8⟩ := h
    simp [get_language_config, h1, h2, h3, h4, h5, h6, h7, h8]
  · intro _ _ _ _ _ hch
    exact chunk_code_language hch

/-- A concrete function descriptor used by witnesses. -/
def wit_func : FunctionInfo := ⟨"f", 1, 1⟩

/-- C9 witness: the unknown identifier "cobol" falls back to the TypeScript
configuration and a concrete produced chunk carries "cobol" verbatim. -/
theorem c9_unknown_language_fallback_witness :
    "cobol" ∉ (["typescript", "javascript", "python", "rust", "go", "java",
        "cpp", "c++"] : List String) ∧
    get_language_config "cobol" = LanguageConfig.typescript ∧
    (create_function_chunk wit_func "fn f() {}" "cobol" []).language = "cobol" :=
  ⟨by decide, (c9_unknown_language_fallback "cobol" (by decide)).1,
    (c9_unknown_language_fallback "cobol" (by decide)).2 [wit_func] [] [] "fn f() {}" _
      (by decide)⟩

/-- C3 counterexample: for `lines = ["// a", "x := 1", "// b", "fn f() {}"]`
and construct index 3, the qualifying line three above the construct is
scanned first, so the code returns context start 0 even though the line at
index 1 — inside the returned window `[0, 3)` — is disqualifying; the claim's
inside-out scan (stop at the first failure counting outward from the
construct) would instead stop at index 1 and the window would contain only
qualifying lines. -/
theorem c3_counterexample :
    find_preceding_context ["// a", "x := 1", "// b", "fn f() {}"] 3 = 0 ∧
      context_line_ok "x := 1" = false := by
  refine ⟨by decide, by decide⟩

/-- C3 (amended): `find_preceding_context` never returns an index more than 3
lines above the construct, but it scans the up-to-3 preceding lines from the
outermost (3 above) inward: each scanned qualifying line (trimmed empty or
starting with "//" or "*") becomes the new candidate context start and the
first non-qualifying line in that inward scan stops it, so the result is the
line scanned just before the stop — the window `[context_start, start_idx)`
may therefore contain disqualifying lines, and a disqualifying line at
distance 3 blocks any closer context while closer qualifying lines overwrite
farther ones. -/
theorem c3_context_scan_amended :
    (∀ (lines : List String) (s : Nat),
      find_preceding_context lines s ≤ s ∧ s ≤ find_preceding_context lines s + 3) ∧
    (∀ (lines : List String) (a : Nat),
      find_preceding_context lines (a + 3) =
        if context_line_ok (lines.getD a "") = true then
          if context_line_ok (lines.getD (a + 1) "") = true then
            if context_line_ok (lines.getD (a + 2) "") = true then a + 2 else a + 1
          else a
        else a + 3) := by
  constructor
  · intro lines s
    simp only [find_preceding_context, fpc_loop]
    split_ifs <;> omega
  · intro lines a
    simp only [find_preceding_context, fpc_loop]
    have e1 : a + 3 - 2 - 1 = a := by omega
    have e2 : a + 3 - 1 - 1 = a + 1 := by omega
    have e3 : a + 3 - 0 - 1 = a + 2 := by omega
    rw [e1, e2, e3]
    split_ifs <;> omega

/-- C6: a function descriptor whose line range is fully contained in some
class descriptor's range never yields its own standalone function chunk in
the output of `chunk_code`: no produced chunk has an empty class list together
with exactly that function as its function list. -/
theorem c6_nested_function_no_standalone_chunk (functions : List FunctionInfo)
    (classes : List ClassInfo) (imports : List ImportInfo) (source language : String)
    (f : FunctionInfo) (hf : f ∈ functions) (hin : is_inside_class f classes = true) :
    ∀ ch ∈ chunk_code functions classes imports source language,
      ¬(ch.classes = [] ∧ ch.functions = [f]) := by
  intro ch hch ⟨hcls, hfns⟩
  unfold chunk_code at hch
  rcases List.mem_append.mp hch with h1 | h2
  · rcases List.mem_append.mp h1 with hc | hfn
    · obtain ⟨c, _, rfl⟩ := List.mem_map.mp hc
      simp [create_class_chunk] at hcls
    · obtain ⟨g, hg, rfl⟩ := List.mem_map.mp hfn
      obtain ⟨hgmem, hgout⟩ := List.mem_filter.mp hg
      have hgf : g = f := by
        have : [g] = [f] := hfns
        simpa using this
      subst hgf
      rw [Bool.not_eq_true'] at hgout
      rw [hin] at hgout
      cases hgout
  · rw [mem_create_uncovered_chunks] at h2
    obtain ⟨se, _, hrun⟩ := h2
    obtain ⟨_, w, _, hemit⟩ := mem_run_chunks.mp hrun
    have := (emit_window_some hemit).2.2.2.2.1
    rw [this] at hfns
    cases hfns

/-- A concrete class with one method, used by witnesses. -/
def wit_cls : ClassInfo := ⟨"C", 1, 4, [⟨"m", 2, 3⟩]⟩

/-- A concrete method descriptor nested inside `wit_cls`. -/
def wit_method : FunctionInfo := ⟨"m", 2, 3⟩

/-- Source text for the nested-method witness. -/
def wit_cls_src : String := "class C \x7b\n  m() \x7b\n  \x7d\n\x7d"

/-- C6 witness: the method on lines 2-3 of a class spanning lines 1-4 yields
no standalone chunk; in particular the produced class chunk is not one. -/
theorem c6_nested_function_no_standalone_chunk_witness :
    wit_method ∈ [wit_method] ∧ is_inside_class wit_method [wit_cls] = true ∧
      ¬((create_class_chunk wit_cls wit_cls_src "typescript" []).classes = [] ∧
        (create_class_chunk wit_cls wit_cls_src "typescript" []).functions = [wit_method]) :=
  ⟨by decide, by decide,
    c6_nested_function_no_standalone_chunk [wit_method] [wit_cls] [] wit_cls_src "typescript"
      wit_method (by decide) (by decide) _ (by decide)⟩

/-! ## Coverage characterization (for C2) -/

lemma mark_aux_length : ∀ (l : List Bool) (s e i : Nat), (mark_aux l s e i).length = l.length := by
  intro l
  induction l with
  | nil => intro s e i; rfl
  | cons b rest ih =>
    intro s e i
    simp only [mark_aux, List.length_cons, ih]

lemma mark_lines_covered_length (covered : List Bool) (a b : Nat) :
    (mark_lines_covered covered a b).length = covered.length :=
  mark_aux_length covered _ _ 0

lemma mark_aux_getD : ∀ (l : List Bool) (s e i j : Nat), j < l.length →
    (mark_aux l s e i).getD j false =
      (l.getD j false || (decide (s ≤ i + j) && decide (i + j < e))) := by
  intro l
  induction l with
  | nil => intro s e i j hj; simp at hj
  | cons b rest ih =>
    intro s e i j hj
    cases j with
    | zero =>
      simp only [mark_aux, List.getD_cons_zero, Nat.add_zero]
      by_cases hs : s ≤ i <;> by_cases he : i < e <;> simp [hs, he]
    | succ j =>
      simp only [mark_aux, List.getD_cons_succ]
      rw [ih s e (i + 1) j (by simpa using hj)]
      have : i + 1 + j = i + (j + 1) := by omega
      rw [this]

lemma mark_lines_covered_getD (covered : List Bool) (a b j : Nat) (hj : j < covered.length) :
    (mark_lines_covered covered a b).getD j false =
      (covered.getD j false || (decide (a - 1 ≤ j) && decide (j < Nat.min b covered.length))) := by
  unfold mark_lines_covered
  rw [mark_aux_getD covered _ _ 0 j hj]
  simp

lemma foldl_mark_length : ∀ (chs : List CodeChunk) (cov : List Bool),
    (chs.foldl (fun c ch => mark_lines_covered c ch.start_line ch.end_line) cov).length =
      cov.length := by
  intro chs
  induction chs with
  | nil => intro cov; rfl
  | cons ch rest ih =>
    intro cov
    simp only [List.foldl_cons, ih, mark_lines_covered_length]

lemma foldl_mark_getD : ∀ (chs : List CodeChunk) (cov : List Bool) (j : Nat),
    j < cov.length →
    (chs.foldl (fun c ch => mark_lines_covered c ch.start_line ch.end_line) cov).getD j false =
      (cov.getD j false ||
        chs.any (fun ch => decide (ch.start_line - 1 ≤ j) &&
          decide (j < Nat.min ch.end_line cov.length))) := by
  intro chs
  induction chs with
  | nil => intro cov j hj; simp
  | cons ch rest ih =>
    intro cov j hj
    simp only [List.foldl_cons, List.any_cons]
    rw [ih (mark_lines_covered cov ch.start_line ch.end_line) j
      (by rw [mark_lines_covered_length]; exact hj)]
    rw [mark_lines_covered_getD cov _ _ j hj]
    rw [mark_lines_covered_length]
    rw [Bool.or_assoc]

lemma replicate_false_getD : ∀ (n j : Nat), (List.replicate n false).getD j false = false := by
  intro n
  induction n with
  | zero => intro j; cases j <;> rfl
  | succ n ih =>
    intro j
    cases j with
    | zero => rfl
    | succ j =>
      simp only [List.replicate, List.getD_cons_succ]
      exact ih j

lemma create_class_chunk_start_line (c : ClassInfo) (source language : String)
    (imports : List ImportInfo) :
    (create_class_chunk c source language imports).start_line = c.start_line := rfl

lemma create_class_chunk_end_line (c : ClassInfo) (source language : String)
    (imports : List ImportInfo) :
    (create_class_chunk c source language imports).end_line = c.end_line := rfl

lemma create_function_chunk_start_line (f : FunctionInfo) (source language : String)
    (imports : List ImportInfo) :
    (create_function_chunk f source language imports).start_line =
      find_preceding_context (rust_lines source) (f.start_line - 1) + 1 := rfl

lemma create_function_chunk_end_line (f : FunctionInfo) (source language : String)
    (imports : List ImportInfo) :
    (create_function_chunk f source language imports).end_line = f.end_line := rfl

/-- C2 (amended): for every function descriptor not contained in any class,
`chunk_code` marks the whole emitted chunk span covered — from the attached
context start (one less than the chunk's `start_line`) through `end_line` —
so a blank or comment line attached as leading context IS treated as covered
when the filler chunks are computed; a line is covered after the structural
pass exactly when it lies in some class span or in some selected function
chunk's context-extended span. -/
theorem c2_covered_spans_include_context (functions : List FunctionInfo)
    (classes : List ClassInfo) (imports : List ImportInfo) (source language : String)
    (j : Nat) (hj : j < (rust_lines source).length) :
    ((covered_after_structural functions classes imports source language).getD j false = true ↔
      (∃ c ∈ classes,
        c.start_line - 1 ≤ j ∧ j < Nat.min c.end_line (rust_lines source).length) ∨
      (∃ f ∈ functions, is_inside_class f classes = false ∧
        find_preceding_context (rust_lines source) (f.start_line - 1) ≤ j ∧
        j < Nat.min f.end_line (rust_lines source).length)) := by
  unfold covered_after_structural
  rw [← List.foldl_append]
  rw [foldl_mark_getD _ _ j (by simpa using hj)]
  rw [replicate_false_getD]
  simp only [Bool.false_or, List.any_append, Bool.or_eq_true, List.any_eq_true,
    class_chunks, function_chunks, List.mem_map, List.mem_filter,
    create_class_chunk_start_line, create_class_chunk_end_line,
    create_function_chunk_start_line, create_function_chunk_end_line,
    Bool.and_eq_true, decide_eq_true_eq, Bool.not_eq_true',
    Nat.add_sub_cancel, List.length_replicate]
  constructor
  · rintro (⟨ch, ⟨c, hc, rfl⟩, h1, h2⟩ | ⟨ch, ⟨f, ⟨hf, hnin⟩, rfl⟩, h1, h2⟩)
    · exact Or.inl ⟨c, hc, h1, h2⟩
    · exact Or.inr ⟨f, hf, hnin, h1, h2⟩
  · rintro (⟨c, hc, h1, h2⟩ | ⟨f, hf, hnin, h1, h2⟩)
    · exact Or.inl ⟨create_class_chunk c source language imports, ⟨c, hc, rfl⟩, h1, h2⟩
    · exact Or.inr ⟨create_function_chunk f source language imports, ⟨f, ⟨hf, hnin⟩, rfl⟩, h1, h2⟩

/-- A function on line 2 with a doc comment on line 1, for the C2 witness and
counterexample. -/
def wit_doc_func : FunctionInfo := ⟨"f", 2, 2⟩

/-- Source text: a comment line followed by a one-line function. -/
def wit_doc_src : String := "// doc\nfn f() {}"

/-- C2 counterexample: the comment line above `fn f` is attached as context
(the context start is index 0) and it IS marked covered by `chunk_code`'s
structural pass, although it is not among the construct's own lines
`[start_line, end_line] = [2, 2]` (0-based own span starts at index 1); the
claim says it must remain uncovered. -/
theorem c2_counterexample :
    (covered_after_structural [wit_doc_func] [] [] wit_doc_src "ts").getD 0 false = true ∧
      context_line_ok "// doc" = true ∧
      find_preceding_context (rust_lines wit_doc_src) (wit_doc_func.start_line - 1) = 0 ∧
      wit_doc_func.start_line - 1 = 1 := by
  refine ⟨by decide, by decide, by decide, by decide⟩

/-- C2 witness: the amended characterization applied at the comment line
(index 0) of the concrete source, showing it covered. -/
theorem c2_covered_spans_include_context_witness :
    0 < (rust_lines wit_doc_src).length ∧
      (covered_after_structural [wit_doc_func] [] [] wit_doc_src "ts").getD 0 false = true :=
  ⟨by decide,
    (c2_covered_spans_include_context [wit_doc_func] [] [] wit_doc_src "ts" 0 (by decide)).mpr
      (Or.inr ⟨wit_doc_func, by decide, by decide, by decide, by decide⟩)⟩

/-! ## Uncovered-region splitter properties (for C7) -/

/-- Five uncovered lines of non-ASCII text: each line is five copies of é
(5 characters, 10 UTF-8 bytes), so the single emitted window has trimmed byte
length 54 but trimmed character length only 29. -/
def c7_nonascii_src : String := "ééééé\nééééé\nééééé\nééééé\nééééé"

/-- Five uncovered lines of ASCII text, 59 bytes overall. -/
def c7_ascii_src : String :=
  "aaaaaaaaaaa\naaaaaaaaaaa\naaaaaaaaaaa\naaaaaaaaaaa\naaaaaaaaaaa"

/-- C7 counterexample: on a 5-line uncovered run of é-lines the splitter
emits a chunk whose trimmed character length is 29, below the threshold 50 —
the emission test compares the trimmed UTF-8 byte length (54 here), not the
character length the claim states. -/
theorem c7_counterexample :
    ((create_uncovered_chunks (List.replicate 5 false) c7_nonascii_src "ts" []).map
        (fun ch => (rust_trim ch.text).length)) = [29] ∧
      (29 : Nat) < MIN_CHUNK_SIZE ∧
      ((create_uncovered_chunks (List.replicate 5 false) c7_nonascii_src "ts" []).map
        (fun ch => utf8_len (rust_trim ch.text))) = [54] := by
  refine ⟨by decide, by decide, by decide⟩

/-- C7 (amended): every chunk the uncovered-region splitter emits lies inside
a maximal uncovered run of at least `MIN_LINES_PER_CHUNK` (5) lines — runs
shorter than that contribute nothing — spans at most `MAX_LINES_PER_CHUNK`
(200) lines, and has trimmed UTF-8 byte length at least `MIN_CHUNK_SIZE`
(50); in particular its trimmed text is never empty, so an all-whitespace
window is never emitted. -/
theorem c7_uncovered_splitter_amended (cov : List Bool) (source language : String)
    (imports : List ImportInfo) (ch : CodeChunk)
    (hch : ch ∈ create_uncovered_chunks cov source language imports) :
    ∃ s e, (s, e) ∈ uncovered_runs cov ∧ MIN_LINES_PER_CHUNK ≤ e - s ∧ e ≤ cov.length ∧
      s + 1 ≤ ch.start_line ∧ ch.end_line ≤ e ∧ ch.start_line ≤ ch.end_line ∧
      ch.end_line + 1 - ch.start_line ≤ MAX_LINES_PER_CHUNK ∧
      MIN_CHUNK_SIZE ≤ utf8_len (rust_trim ch.text) ∧ rust_trim ch.text ≠ "" := by
  rw [mem_create_uncovered_chunks] at hch
  obtain ⟨se, hse, hrun⟩ := hch
  obtain ⟨hmin, w, hw, hemit⟩ := mem_run_chunks.mp hrun
  obtain ⟨hrun1, hrun2⟩ := mem_uncovered_runs hse
  have hmin5 : MIN_LINES_PER_CHUNK = 5 := rfl
  have hmax200 : MAX_LINES_PER_CHUNK = 200 := rfl
  have hcs : 1 ≤ Nat.min MAX_LINES_PER_CHUNK (se.2 - se.1) := by
    rw [nat_min_eq_ite]
    split_ifs <;> omega
  obtain ⟨hw1, hw2, hw3, hw4⟩ := mem_step_windows hcs hw
  have hcsle : Nat.min MAX_LINES_PER_CHUNK (se.2 - se.1) ≤ MAX_LINES_PER_CHUNK := by
    rw [nat_min_eq_ite]
    split_ifs <;> omega
  obtain ⟨htext, hstart, hend, _, _, _, _, hlen⟩ := emit_window_some hemit
  refine ⟨se.1, se.2, by simpa using hse, hmin, hrun2, ?_, ?_, ?_, ?_, hlen, ?_⟩
  · omega
  · omega
  · omega
  · rw [hmax200]
    have hd200 : Nat.min MAX_LINES_PER_CHUNK (se.2 - se.1) ≤ 200 := by
      rw [← hmax200]
      exact hcsle
    omega
  · intro h0
    rw [h0] at hlen
    have h1 : utf8_len "" = 0 := rfl
    have h2 : MIN_CHUNK_SIZE = 50 := rfl
    omega

/-- C7 witness: a concrete 5-line, 59-byte ASCII uncovered run yields one
chunk satisfying all the amended bounds. -/
theorem c7_uncovered_splitter_amended_witness :
    (create_uncovered_chunks (List.replicate 5 false) c7_ascii_src "ts" []).length = 1 ∧
      ∃ s e, (s, e) ∈ uncovered_runs (List.replicate 5 false) ∧
        MIN_LINES_PER_CHUNK ≤ e - s ∧ e ≤ (List.replicate 5 false).length ∧
        s + 1 ≤ ((create_uncovered_chunks (List.replicate 5 false) c7_ascii_src "ts"
          []).headI).start_line ∧
        ((create_uncovered_chunks (List.replicate 5 false) c7_ascii_src "ts"
          []).headI).end_line ≤ e ∧
        ((create_uncovered_chunks (List.replicate 5 false) c7_ascii_src "ts"
          []).headI).start_line ≤ ((create_uncovered_chunks (List.replicate 5 false)
          c7_ascii_src "ts" []).headI).end_line ∧
        ((create_uncovered_chunks (List.replicate 5 false) c7_ascii_src "ts"
          []).headI).end_line + 1 - ((create_uncovered_chunks (List.replicate 5 false)
          c7_ascii_src "ts" []).headI).start_line ≤ MAX_LINES_PER_CHUNK ∧
        MIN_CHUNK_SIZE ≤ utf8_len (rust_trim ((create_uncovered_chunks
          (List.replicate 5 false) c7_ascii_src "ts" []).headI).text) ∧
        rust_trim ((create_uncovered_chunks (List.replicate 5 false) c7_ascii_src "ts"
          []).headI).text ≠ "" :=
  ⟨by decide,
    c7_uncovered_splitter_amended (List.replicate 5 false) c7_ascii_src "ts" []
      ((create_uncovered_chunks (List.replicate 5 false) c7_ascii_src "ts" []).headI)
      (by decide)⟩

/-! ## Size-based re-splitter properties (for C1 and C4) -/

lemma fpc_le (lines : List String) (s : Nat) : find_preceding_context lines s ≤ s := by
  simp only [find_preceding_context, fpc_loop]
  split_ifs <;> omega

lemma rust_slice_length {α : Type} (l : List α) (a b : Nat) (hab : a ≤ b)
    (hb : b ≤ l.length) : (rust_slice l a b).length = b - a := by
  simp only [rust_slice, List.length_take, List.length_drop]
  rw [min_def]
  split_ifs <;> omega

lemma rust_slice_full {α : Type} (l : List α) (a : Nat) :
    rust_slice l a l.length = l.drop a := by
  simp only [rust_slice]
  apply List.take_of_length_le
  simp

/-- The loop invariant of `split_loop`: with `current_start ≤ i` and
`i + rem.length = lines.length`, the produced list is nonempty whenever
`current_start` is a valid index; its head starts at
`parent.start_line + current_start`; consecutive elements satisfy
`end_line = next start_line`; its last element carries the parent's own
`end_line` and the join of the remaining lines; every element has
`start_line ≤ end_line`; and every non-final element's text is the join of
the parent's lines `[start_line - S, end_line - S)` (0-based, half-open). -/
lemma split_loop_spec (parent : CodeChunk) (lines : List String) (target_size : Nat)
    (hwf : parent.end_line + 1 = parent.start_line + lines.length) :
    ∀ (rem : List String) (i current_start current_size : Nat),
      current_start ≤ i → i + rem.length = lines.length →
      ∀ out, out = split_loop parent lines target_size rem i current_start current_size →
      (current_start < lines.length → out ≠ []) ∧
      (∀ c, out.head? = some c → c.start_line = parent.start_line + current_start) ∧
      List.Chain' (fun x y => x.end_line = y.start_line) out ∧
      (∀ c, out.getLast? = some c → c.end_line = parent.end_line ∧
        ∃ k, k < lines.length ∧ c.start_line = parent.start_line + k ∧
          c.text = join_lines (lines.drop k)) ∧
      (∀ c ∈ out, c.start_line ≤ c.end_line) ∧
      (∀ c ∈ out.dropLast, c.start_line < c.end_line ∧
        c.text = join_lines (rust_slice lines (c.start_line - parent.start_line)
          (c.end_line - parent.start_line))) := by
  intro rem
  induction rem with
  | nil =>
    intro i current_start current_size hci hlen out hout
    simp only [List.length_nil, Nat.add_zero] at hlen
    simp only [split_loop] at hout
    by_cases hc : current_start < lines.length
    · rw [if_pos hc] at hout
      subst hout
      refine ⟨fun _ => by simp, ?_, List.chain'_singleton _, ?_, ?_, by simp⟩
      · intro c hc2
        simp only [List.head?_cons, Option.some.injEq] at hc2
        subst hc2
        rfl
      · intro c hc2
        simp only [List.getLast?_singleton, Option.some.injEq] at hc2
        subst hc2
        exact ⟨rfl, current_start, hc, rfl, rfl⟩
      · intro c hc2
        simp only [List.mem_singleton] at hc2
        subst hc2
        show parent.start_line + current_start ≤ parent.end_line
        omega
    · rw [if_neg hc] at hout
      subst hout
      refine ⟨fun h => absurd h hc, by simp, List.chain'_nil, by simp, by simp, by simp⟩
  | cons line rest ih =>
    intro i current_start current_size hci hlen out hout
    simp only [List.length_cons] at hlen
    have hi : i < lines.length := by omega
    simp only [split_loop] at hout
    by_cases hcond : current_size + estimate_tokens line > target_size ∧ current_start < i
    · rw [if_pos hcond] at hout
      obtain ⟨r1, r2, r3, r4, r5, r6⟩ := ih (i + 1) i (estimate_tokens line) (by omega)
        (by omega) (split_loop parent lines target_size rest (i + 1) i (estimate_tokens line))
        rfl
      have hrecne := r1 hi
      rcases hrec : split_loop parent lines target_size rest (i + 1) i (estimate_tokens line)
        with _ | ⟨rh, rt⟩
      · exact absurd hrec hrecne
      rw [hrec] at hout r2 r3 r4 r5 r6
      subst hout
      have hrhstart : rh.start_line = parent.start_line + i := r2 rh rfl
      refine ⟨fun _ => by simp, ?_, ?_, ?_, ?_, ?_⟩
      · intro c hc2
        simp only [List.head?_cons, Option.some.injEq] at hc2
        subst hc2
        rfl
      · rw [List.chain'_cons]
        refine ⟨?_, r3⟩
        show parent.start_line + i = rh.start_line
        omega
      · intro c hc2
        rw [List.getLast?_cons_cons] at hc2
        exact r4 c hc2
      · intro c hc2
        rcases List.mem_cons.mp hc2 with hc3 | hc3
        · subst hc3
          show parent.start_line + current_start ≤ parent.start_line + i
          omega
        · exact r5 c hc3
      · intro c hc2
        rw [List.dropLast_cons₂] at hc2
        rcases List.mem_cons.mp hc2 with hc3 | hc3
        · subst hc3
          constructor
          · show parent.start_line + current_start < parent.start_line + i
            omega
          · show join_lines (rust_slice lines current_start i) =
              join_lines (rust_slice lines
                (parent.start_line + current_start - parent.start_line)
                (parent.start_line + i - parent.start_line))
            rw [Nat.add_sub_cancel_left, Nat.add_sub_cancel_left]
        · exact r6 c hc3
    · rw [if_neg hcond] at hout
      exact ih (i + 1) current_start (current_size + estimate_tokens line) (by omega)
        (by omega) out hout

/-- Chained intervals with `end_line = next start_line` cover exactly the
range from the head's `start_line` to the last element's `end_line`. -/
lemma chain_cover : ∀ (l : List CodeChunk) (ch cl : CodeChunk),
    l.head? = some ch → l.getLast? = some cl →
    List.Chain' (fun x y => x.end_line = y.start_line) l →
    (∀ c ∈ l, c.start_line ≤ c.end_line) →
    ∀ n, (ch.start_line ≤ n ∧ n ≤ cl.end_line) ↔
      ∃ c ∈ l, c.start_line ≤ n ∧ n ≤ c.end_line := by
  intro l
  induction l with
  | nil => intro ch cl hh; cases hh
  | cons a t ih =>
    intro ch cl hh hl hchain hse n
    simp only [List.head?_cons, Option.some.injEq] at hh
    subst hh
    cases t with
    | nil =>
      simp only [List.getLast?_singleton, Option.some.injEq] at hl
      subst hl
      constructor
      · rintro ⟨h1, h2⟩
        exact ⟨a, by simp, h1, h2⟩
      · rintro ⟨c, hc, h1, h2⟩
        simp only [List.mem_singleton] at hc
        subst hc
        exact ⟨h1, h2⟩
    | cons b t2 =>
      rw [List.getLast?_cons_cons] at hl
      obtain ⟨hab, hchain2⟩ := List.chain'_cons.mp hchain
      have hiff := ih b cl rfl hl hchain2 (fun c hc => hse c (List.mem_cons_of_mem a hc))
      have hbcl : b.start_line ≤ cl.end_line :=
        ((hiff b.start_line).mpr ⟨b, List.mem_cons_self b t2, le_refl _,
          hse b (by simp)⟩).2
      constructor
      · rintro ⟨h1, h2⟩
        by_cases hn : n ≤ a.end_line
        · exact ⟨a, by simp, h1, hn⟩
        · obtain ⟨c, hc, hc1, hc2⟩ := (hiff n).mp ⟨by omega, h2⟩
          exact ⟨c, List.mem_cons_of_mem a hc, hc1, hc2⟩
      · rintro ⟨c, hc, hc1, hc2⟩
        rcases List.mem_cons.mp hc with hc3 | hc3
        · subst hc3
          have hae : c.start_line ≤ c.end_line := hse c (by simp)
          omega
        · have := (hiff n).mpr ⟨c, hc3, hc1, hc2⟩
          have has : a.start_line ≤ a.end_line := hse a (by simp)
          omega

/-- C1 (amended): for a well-formed chunk (the line count of its text matches
its recorded line range), the sub-chunks of `split_large_chunk` cover the
parent's line range in order with no gaps — the first starts at the parent's
`start_line`, the last ends at the parent's `end_line`, and a line number lies
in the parent's range iff it lies in some sub-chunk's range — but consecutive
sub-chunks are NOT disjoint: each non-final sub-chunk's `end_line` equals the
next sub-chunk's `start_line`, so when a split actually occurs adjacent
ranges overlap in exactly that boundary line. -/
theorem c1_resplit_coverage_amended (chunk : CodeChunk) (target_size : Nat)
    (hne : rust_lines chunk.text ≠ [])
    (hwf : chunk.end_line + 1 = chunk.start_line + (rust_lines chunk.text).length) :
    split_large_chunk chunk target_size ≠ [] ∧
    (∀ c, (split_large_chunk chunk target_size).head? = some c →
      c.start_line = chunk.start_line) ∧
    (∀ c, (split_large_chunk chunk target_size).getLast? = some c →
      c.end_line = chunk.end_line) ∧
    List.Chain' (fun x y => x.end_line = y.start_line) (split_large_chunk chunk target_size) ∧
    (∀ c ∈ split_large_chunk chunk target_size, c.start_line ≤ c.end_line) ∧
    (∀ n, (chunk.start_line ≤ n ∧ n ≤ chunk.end_line) ↔
      ∃ c ∈ split_large_chunk chunk target_size,
        c.start_line ≤ n ∧ n ≤ c.end_line) := by
  have hlen0 : 0 < (rust_lines chunk.text).length := List.length_pos.mpr hne
  simp only [split_large_chunk]
  by_cases h : chunk.tokens ≤ target_size
  · rw [if_pos h]
    refine ⟨by simp, ?_, ?_, List.chain'_singleton _, ?_, ?_⟩
    · intro c hc
      simp only [List.head?_cons, Option.some.injEq] at hc
      subst hc
      rfl
    · intro c hc
      simp only [List.getLast?_singleton, Option.some.injEq] at hc
      subst hc
      rfl
    · intro c hc
      simp only [List.mem_singleton] at hc
      subst hc
      omega
    · intro n
      constructor
      · rintro ⟨h1, h2⟩
        exact ⟨chunk, by simp, h1, h2⟩
      · rintro ⟨c, hc, h1, h2⟩
        simp only [List.mem_singleton] at hc
        subst hc
        exact ⟨h1, h2⟩
  · rw [if_neg h]
    obtain ⟨r1, r2, r3, r4, r5, r6⟩ := split_loop_spec chunk (rust_lines chunk.text)
      target_size hwf (rust_lines chunk.text) 0 0 0 (le_refl 0) (by omega)
      (split_loop chunk (rust_lines chunk.text) target_size (rust_lines chunk.text) 0 0 0) rfl
    have hout_ne := r1 hlen0
    refine ⟨hout_ne, ?_, ?_, r3, r5, ?_⟩
    · intro c hc
      have := r2 c hc
      omega
    · intro c hc
      exact (r4 c hc).1
    · rcases hhd : (split_loop chunk (rust_lines chunk.text) target_size
        (rust_lines chunk.text) 0 0 0).head? with _ | ch0
      · rw [List.head?_eq_none_iff] at hhd
        exact absurd hhd hout_ne
      rcases hgl : (split_loop chunk (rust_lines chunk.text) target_size
        (rust_lines chunk.text) 0 0 0).getLast? with _ | cl0
      · rw [List.getLast?_eq_none_iff] at hgl
        exact absurd hgl hout_ne
      intro n
      have hcover := chain_cover _ ch0 cl0 hhd hgl r3 r5 n
      have hch0 : ch0.start_line = chunk.start_line := by
        have := r2 ch0 hhd
        omega
      have hcl0 : cl0.end_line = chunk.end_line := (r4 cl0 hgl).1
      rw [hch0, hcl0] at hcover
      exact hcover

/-- The re-split example: a well-formed two-line chunk, 17 bytes of text,
stored token estimate 4. -/
def resplit_ex : CodeChunk :=
  { id := "x", text := "aaaaaaaa\nbbbbbbbb", start_line := 1, end_line := 2, tokens := 4,
    language := "ts", functions := [], classes := [], imports := [], dependencies := [] }

/-- C1 counterexample: splitting the two-line chunk `resplit_ex` (lines 1-2)
with budget 2 yields sub-chunks with ranges [1, 2] and [2, 2]: the first
sub-chunk's `end_line` equals the second's `start_line`, so line 2 lies in
both ranges — the ranges overlap and do not partition the parent's range,
although the texts ("aaaaaaaa" and "bbbbbbbb") do partition the lines. -/
theorem c1_resplit_partition_counterexample :
    (split_large_chunk resplit_ex 2).map (fun c => (c.start_line, c.end_line)) =
        [(1, 2), (2, 2)] ∧
      (split_large_chunk resplit_ex 2).map (fun c => c.text) =
        ["aaaaaaaa", "bbbbbbbb"] ∧
      ((split_large_chunk resplit_ex 2).getD 0 default).end_line =
        ((split_large_chunk resplit_ex 2).getD 1 default).start_line := by
  refine ⟨by decide, by decide, by decide⟩

/-- C1 witness: the amended coverage statement holds on the concrete split of
`resplit_ex` with budget 2. -/
theorem c1_resplit_coverage_amended_witness :
    rust_lines resplit_ex.text ≠ [] ∧
      resplit_ex.end_line + 1 = resplit_ex.start_line + (rust_lines resplit_ex.text).length ∧
      split_large_chunk resplit_ex 2 ≠ [] ∧
      List.Chain' (fun x y => x.end_line = y.start_line) (split_large_chunk resplit_ex 2) :=
  ⟨by decide, by decide,
    (c1_resplit_coverage_amended resplit_ex 2 (by decide) (by decide)).1,
    (c1_resplit_coverage_amended resplit_ex 2 (by decide) (by decide)).2.2.2.1⟩

lemma create_class_chunk_text (cls : ClassInfo) (source language : String)
    (imports : List ImportInfo) :
    (create_class_chunk cls source language imports).text =
      join_lines (rust_slice (rust_lines source) (cls.start_line - 1)
        (Nat.min cls.end_line (rust_lines source).length)) := rfl

lemma create_function_chunk_text (func : FunctionInfo) (source language : String)
    (imports : List ImportInfo) :
    (create_function_chunk func source language imports).text =
      join_lines (rust_slice (rust_lines source)
        (find_preceding_context (rust_lines source) (func.start_line - 1))
        (Nat.min func.end_line (rust_lines source).length)) := rfl

/-- C4 (amended): class chunks, function chunks, and filler chunks satisfy the
data-model invariant — `start_line ≤ end_line` and the text is exactly the
newline-join of the source lines `[start_line, end_line]` (for descriptors
lying within the source) — but the sub-chunks of `split_large_chunk` satisfy
it only partly: every sub-chunk of a well-formed chunk has
`start_line ≤ end_line`, and the final sub-chunk's text is the join of the
parent's lines `[start_line, end_line]`, while each non-final sub-chunk's
text is the join of lines `[start_line, end_line - 1]` only — its `end_line`
field overstates its own text by one line. -/
theorem c4_invariant_amended :
    (∀ (cls : ClassInfo) (source language : String) (imports : List ImportInfo),
      1 ≤ cls.start_line → cls.start_line ≤ cls.end_line →
      cls.end_line ≤ (rust_lines source).length →
      (create_class_chunk cls source language imports).start_line ≤
          (create_class_chunk cls source language imports).end_line ∧
        (create_class_chunk cls source language imports).text =
          join_lines (rust_slice (rust_lines source)
            ((create_class_chunk cls source language imports).start_line - 1)
            ((create_class_chunk cls source language imports).end_line))) ∧
    (∀ (func : FunctionInfo) (source language : String) (imports : List ImportInfo),
      1 ≤ func.start_line → func.start_line ≤ func.end_line →
      func.end_line ≤ (rust_lines source).length →
      (create_function_chunk func source language imports).start_line ≤
          (create_function_chunk func source language imports).end_line ∧
        (create_function_chunk func source language imports).text =
          join_lines (rust_slice (rust_lines source)
            ((create_function_chunk func source language imports).start_line - 1)
            ((create_function_chunk func source language imports).end_line))) ∧
    (∀ (cov : List Bool) (source language : String) (imports : List ImportInfo)
      (ch : CodeChunk), ch ∈ create_uncovered_chunks cov source language imports →
      ch.start_line ≤ ch.end_line ∧
        ch.text = join_lines (rust_slice (rust_lines source) (ch.start_line - 1)
          ch.end_line)) ∧
    (∀ (chunk : CodeChunk) (target_size : Nat),
      rust_lines chunk.text ≠ [] →
      chunk.end_line + 1 = chunk.start_line + (rust_lines chunk.text).length →
      chunk.text = join_lines (rust_lines chunk.text) →
      (∀ c ∈ (split_large_chunk chunk target_size).dropLast,
        c.start_line ≤ c.end_line ∧
          c.text = join_lines (rust_slice (rust_lines chunk.text)
            (c.start_line - chunk.start_line) (c.end_line - chunk.start_line))) ∧
      (∀ c, (split_large_chunk chunk target_size).getLast? = some c →
        c.start_line ≤ c.end_line ∧
          c.text = join_lines (rust_slice (rust_lines chunk.text)
            (c.start_line - chunk.start_line) (c.end_line + 1 - chunk.start_line)))) := by
  refine ⟨?_, ?_, ?_, ?_⟩
  · intro cls source language imports h1 h2 h3
    have hmin : Nat.min cls.end_line (rust_lines source).length = cls.end_line := by
      rw [nat_min_eq_ite, if_pos h3]
    refine ⟨h2, ?_⟩
    rw [create_class_chunk_text, create_class_chunk_start_line, create_class_chunk_end_line,
      hmin]
  · intro func source language imports h1 h2 h3
    have hfpc := fpc_le (rust_lines source) (func.start_line - 1)
    have hmin : Nat.min func.end_line (rust_lines source).length = func.end_line := by
      rw [nat_min_eq_ite, if_pos h3]
    constructor
    · rw [create_function_chunk_start_line, create_function_chunk_end_line]
      omega
    · rw [create_function_chunk_text, create_function_chunk_start_line,
        create_function_chunk_end_line, hmin, Nat.add_sub_cancel]
  · intro cov source language imports ch hch
    rw [mem_create_uncovered_chunks] at hch
    obtain ⟨se, hse, hrun⟩ := hch
    obtain ⟨hmin, w, hw, hemit⟩ := mem_run_chunks.mp hrun
    have hmin5 : MIN_LINES_PER_CHUNK = 5 := rfl
    have hmax200 : MAX_LINES_PER_CHUNK = 200 := rfl
    have hcs : 1 ≤ Nat.min MAX_LINES_PER_CHUNK (se.2 - se.1) := by
      rw [nat_min_eq_ite]
      split_ifs <;> omega
    obtain ⟨hw1, hw2, hw3, hw4⟩ := mem_step_windows hcs hw
    obtain ⟨htext, hstart, hend, _⟩ := emit_window_some hemit
    constructor
    · omega
    · rw [hstart, hend, htext, Nat.add_sub_cancel]
  · intro chunk target_size hne hwf htext
    have hlen0 : 0 < (rust_lines chunk.text).length := List.length_pos.mpr hne
    simp only [split_large_chunk]
    by_cases h : chunk.tokens ≤ target_size
    · rw [if_pos h]
      constructor
      · intro c hc
        simp at hc
      · intro c hc
        simp only [List.getLast?_singleton, Option.some.injEq] at hc
        subst hc
        refine ⟨by omega, ?_⟩
        have e1 : chunk.start_line - chunk.start_line = 0 := Nat.sub_self _
        have e2 : chunk.end_line + 1 - chunk.start_line = (rust_lines chunk.text).length := by
          omega
        rw [e1, e2, rust_slice_full, List.drop_zero]
        exact htext
    · rw [if_neg h]
      obtain ⟨r1, r2, r3, r4, r5, r6⟩ := split_loop_spec chunk (rust_lines chunk.text)
        target_size hwf (rust_lines chunk.text) 0 0 0 (le_refl 0) (by omega)
        (split_loop chunk (rust_lines chunk.text) target_size (rust_lines chunk.text) 0 0 0)
        rfl
      constructor
      · intro c hc
        obtain ⟨hlt, htxt⟩ := r6 c hc
        exact ⟨le_of_lt hlt, htxt⟩
      · intro c hc
        obtain ⟨hendE, k, hk, hstartk, htextk⟩ := r4 c hc
        refine ⟨by omega, ?_⟩
        have e1 : c.start_line - chunk.start_line = k := by omega
        have e2 : c.end_line + 1 - chunk.start_line = (rust_lines chunk.text).length := by
          omega
        rw [e1, e2, rust_slice_full]
        exact htextk

/-- C4 counterexample: the first sub-chunk of splitting `resplit_ex` (text
"aaaaaaaa\nbbbbbbbb", lines 1-2) with budget 2 records the range [1, 2] but
its text is only line 1 ("aaaaaaaa"), not the join of source lines 1-2. -/
theorem c4_invariant_counterexample :
    ((split_large_chunk resplit_ex 2).getD 0 default).start_line = 1 ∧
      ((split_large_chunk resplit_ex 2).getD 0 default).end_line = 2 ∧
      ((split_large_chunk resplit_ex 2).getD 0 default).text = "aaaaaaaa" ∧
      join_lines (rust_slice (rust_lines resplit_ex.text)
        (((split_large_chunk resplit_ex 2).getD 0 default).start_line - 1)
        ((split_large_chunk resplit_ex 2).getD 0 default).end_line) = "aaaaaaaa\nbbbbbbbb" ∧
      ((split_large_chunk resplit_ex 2).getD 0 default).text ≠
        join_lines (rust_slice (rust_lines resplit_ex.text)
          (((split_large_chunk resplit_ex 2).getD 0 default).start_line - 1)
          ((split_large_chunk resplit_ex 2).getD 0 default).end_line) := by
  refine ⟨by decide, by decide, by decide, by decide, by decide⟩

/-- C4 witness: the amended invariant instantiated on a concrete class chunk,
function chunk, filler chunk, and the two sub-chunks of a concrete re-split. -/
theorem c4_invariant_amended_witness :
    ((create_class_chunk wit_cls wit_cls_src "ts" []).start_line ≤
        (create_class_chunk wit_cls wit_cls_src "ts" []).end_line ∧
      (create_class_chunk wit_cls wit_cls_src "ts" []).text =
        join_lines (rust_slice (rust_lines wit_cls_src)
          ((create_class_chunk wit_cls wit_cls_src "ts" []).start_line - 1)
          ((create_class_chunk wit_cls wit_cls_src "ts" []).end_line))) ∧
    ((create_function_chunk wit_doc_func wit_doc_src "ts" []).start_line ≤
        (create_function_chunk wit_doc_func wit_doc_src "ts" []).end_line ∧
      (create_function_chunk wit_doc_func wit_doc_src "ts" []).text =
        join_lines (rust_slice (rust_lines wit_doc_src)
          ((create_function_chunk wit_doc_func wit_doc_src "ts" []).start_line - 1)
          ((create_function_chunk wit_doc_func wit_doc_src "ts" []).end_line))) ∧
    (((create_uncovered_chunks (List.replicate 5 false) c7_ascii_src "ts" []).headI).start_line ≤
        ((create_uncovered_chunks (List.replicate 5 false) c7_ascii_src "ts" []).headI).end_line ∧
      ((create_uncovered_chunks (List.replicate 5 false) c7_ascii_src "ts" []).headI).text =
        join_lines (rust_slice (rust_lines c7_ascii_src)
          (((create_uncovered_chunks (List.replicate 5 false) c7_ascii_src "ts"
            []).headI).start_line - 1)
          ((create_uncovered_chunks (List.replicate 5 false) c7_ascii_src "ts"
            []).headI).end_line)) ∧
    (((split_large_chunk resplit_ex 2).getD 0 default).start_line ≤
        ((split_large_chunk resplit_ex 2).getD 0 default).end_line ∧
      ((split_large_chunk resplit_ex 2).getD 0 default).text =
        join_lines (rust_slice (rust_lines resplit_ex.text)
          (((split_large_chunk resplit_ex 2).getD 0 default).start_line -
            resplit_ex.start_line)
          (((split_large_chunk resplit_ex 2).getD 0 default).end_line -
            resplit_ex.start_line))) ∧
    (((split_large_chunk resplit_ex 2).getD 1 default).start_line ≤
        ((split_large_chunk resplit_ex 2).getD 1 default).end_line ∧
      ((split_large_chunk resplit_ex 2).getD 1 default).text =
        join_lines (rust_slice (rust_lines resplit_ex.text)
          (((split_large_chunk resplit_ex 2).getD 1 default).start_line -
            resplit_ex.start_line)
          (((split_large_chunk resplit_ex 2).getD 1 default).end_line + 1 -
            resplit_ex.start_line))) :=
  ⟨c4_invariant_amended.1 wit_cls wit_cls_src "ts" [] (by decide) (by decide) (by decide),
    c4_invariant_amended.2.1 wit_doc_func wit_doc_src "ts" [] (by decide) (by decide)
      (by decide),
    c4_invariant_amended.2.2.1 (List.replicate 5 false) c7_ascii_src "ts" []
      ((create_uncovered_chunks (List.replicate 5 false) c7_ascii_src "ts" []).headI)
      (by decide),
    (c4_invariant_amended.2.2.2 resplit_ex 2 (by decide) (by decide) (by decide)).1
      ((split_large_chunk resplit_ex 2).getD 0 default) (by decide),
    (c4_invariant_amended.2.2.2 resplit_ex 2 (by decide) (by decide) (by decide)).2
      ((split_large_chunk resplit_ex 2).getD 1 default) (by decide)⟩
